import Mathlib

/-!
Verification of the resource-management core of the lab2-os4 teaching kernel:
the stack frame allocator, the frame handle, and the task manager with its
scheduler and mmap/munmap syscalls, shallowly embedded from
src/os4/src/mm/frame_allocator.rs and src/os4/src/task/mod.rs.
-/

set_option maxRecDepth 4000

/- ## Frame allocator (src/os4/src/mm/frame_allocator.rs) -/

/-- Modelled from the spec: the page size of one frame, a config constant whose
source file is not part of the excerpt; the unit at which a frame handle
zero-fills its backing page. -/
def PAGE_SIZE : Nat := 4096

/-- StackFrameAllocator state: current frontier, exclusive end, recycled stack.
The Rust Vec used as a stack is modelled as a list whose head is the stack top
(push is cons, pop takes the head). -/
structure StackFrameAllocator where
  current : Nat
  end_ : Nat
  recycled : List Nat
deriving Repr, DecidableEq

/-- StackFrameAllocator::new -/
def StackFrameAllocator.new : StackFrameAllocator :=
  { current := 0, end_ := 0, recycled := [] }

/-- StackFrameAllocator::init -/
def StackFrameAllocator.init (a : StackFrameAllocator) (l r : Nat) : StackFrameAllocator :=
  { a with current := l, end_ := r }

/-- StackFrameAllocator::alloc: pop the recycled stack if non-empty; otherwise
fail if the frontier reached the end; otherwise hand out the frontier page and
advance by one (the source writes current += 1 then returns current - 1). -/
def StackFrameAllocator.alloc (a : StackFrameAllocator) :
    Option Nat × StackFrameAllocator :=
  match a.recycled with
  | ppn :: rest => (some ppn, { a with recycled := rest })
  | [] =>
    if a.current = a.end_ then
      (none, a)
    else
      (some a.current, { a with current := a.current + 1 })

/-- StackFrameAllocator::dealloc: the source panics (kernel-halting) when
ppn >= current or ppn is already in the recycled stack; the panic is modelled
as none, the normal path pushes ppn and returns the new state. -/
def StackFrameAllocator.dealloc (a : StackFrameAllocator) (ppn : Nat) :
    Option StackFrameAllocator :=
  if a.current ≤ ppn ∨ ppn ∈ a.recycled then
    none
  else
    some { a with recycled := ppn :: a.recycled }

/-- Iterated alloc: the list of results of n successive allocations together
with the final allocator state. -/
def allocMany : Nat → StackFrameAllocator → List (Option Nat) × StackFrameAllocator
  | 0, a => ([], a)
  | n + 1, a =>
    let p := a.alloc
    let q := allocMany n p.2
    (p.1 :: q.1, q.2)

/-- Physical memory contents: page number and byte offset to byte value. -/
def Mem : Type := Nat → Nat → Nat

/-- FrameTracker::new: the constructor walks the backing page byte array and
sets every byte to zero. Modelled from the spec: get_bytes_array (page-table
internals, outside the excerpt) is the PAGE_SIZE bytes of the page. -/
def frameTracker_new (mem : Mem) (ppn : Nat) : Mem :=
  fun p o => if p = ppn ∧ o < PAGE_SIZE then 0 else mem p o

/-- frame_alloc: allocate from the global allocator and wrap the page in a
FrameTracker, whose constructor zero-fills it. -/
def frame_alloc (a : StackFrameAllocator) (mem : Mem) :
    Option Nat × StackFrameAllocator × Mem :=
  match a.alloc with
  | (some ppn, a1) => (some ppn, a1, frameTracker_new mem ppn)
  | (none, a1) => (none, a1, mem)

/- ## Task manager (src/os4/src/task/mod.rs) -/

/-- Modelled from the spec: the size of the fixed per-task syscall histogram
(config constant MAX_SYSCALL_NUM; the config source is not in the excerpt). -/
def MAX_SYSCALL_NUM : Nat := 500

/-- Modelled from the spec: page alignment of a virtual address
(VirtAddr::aligned). -/
def va_aligned (va : Nat) : Bool := va % PAGE_SIZE == 0

/-- Modelled from the spec: the virtual page containing the address
(VirtAddr::floor). -/
def va_floor (va : Nat) : Nat := va / PAGE_SIZE

/-- Modelled from the spec: the first page boundary at or above the address
(VirtAddr::ceil). -/
def va_ceil (va : Nat) : Nat := (va + PAGE_SIZE - 1) / PAGE_SIZE

/-- VPNRange::new iterated as in the source loops: the pages of [s, e). -/
def vpnRange (s e : Nat) : List Nat := (List.range (e - s)).map (fun i => s + i)

/-- Modelled from the spec: the U flag of the MapPermission bit-field, bit 4,
mirroring the RISC-V PTE flag positions (R, W, X are bits 1, 2, 3). -/
def MapPermission_U : Nat := 16

/-- A page-table entry as seen through translate: validity flag, backing
physical page, permission bits. Modelled from the spec (page-table internals
are outside the excerpt). -/
structure PTE where
  valid : Bool
  ppn : Nat
  perm : Nat
deriving Repr, DecidableEq

/-- Modelled from the spec: the address-space collaborator, reduced to the
interface the task manager consumes, translate from virtual page number to an
optional page-table entry. -/
structure MemorySet where
  translate : Nat → Option PTE

/-- Modelled from the spec: insert_framed_area allocates fresh physical frames
for every page covered by [start_va, end_va) and installs valid mappings
carrying perm; frame identities are irrelevant to the claims, modelled as 0. -/
def MemorySet.insert_framed_area (ms : MemorySet) (start_va end_va perm : Nat) :
    MemorySet :=
  ⟨fun vpn =>
    if va_floor start_va ≤ vpn ∧ vpn < va_ceil end_va then
      some { valid := true, ppn := 0, perm := perm }
    else ms.translate vpn⟩

/-- Modelled from the spec: unmap removes every mapping of [s, e) and returns
each freed physical frame to the global Frame Allocator; the second component
is the list of frames handed back. -/
def MemorySet.unmap (ms : MemorySet) (s e : Nat) : MemorySet × List Nat :=
  (⟨fun vpn => if s ≤ vpn ∧ vpn < e then none else ms.translate vpn⟩,
    (vpnRange s e).filterMap (fun vpn => (ms.translate vpn).map PTE.ppn))

/-- Modelled from the spec: task status, one of Ready, Running, Exited
(Exited terminal). -/
inductive TaskStatus
  | Ready
  | Running
  | Exited
deriving Repr, DecidableEq

/-- Task control block, reduced to the fields the claims touch: status, first
dispatch timestamp, syscall histogram, address space. The saved register
context is opaque to every claim and omitted. -/
structure TaskControlBlock where
  task_status : TaskStatus
  start_time : Option Nat
  syscall_times : List Nat
  memory_set : MemorySet

/-- Default block used only to make Vec indexing total; every theorem carries
the in-bounds hypothesis under which it is never consulted. -/
def defaultTCB : TaskControlBlock :=
  { task_status := TaskStatus.Ready, start_time := none, syscall_times := [],
    memory_set := ⟨fun _ => none⟩ }

/-- TaskManagerInner: the task list and the current task index. -/
structure TaskManagerInner where
  tasks : List TaskControlBlock
  current_task : Nat

/-- TaskManager::task_mmap: validate alignment and permission bits, reject if
any covered page is already validly mapped, otherwise install the framed area
with the user bit added. The source test (port & !0x7) != 0 is written as
port >>> 3 != 0, and (port as u8) << 1 as port <<< 1. -/
def task_mmap (inner : TaskManagerInner) (start len port : Nat) :
    Int × TaskManagerInner :=
  let start_va := start
  let end_va := start + len
  if !va_aligned start_va || port >>> 3 != 0 || port &&& 0x7 == 0 then
    (-1, inner)
  else
    let current_task := inner.current_task
    let tcb := inner.tasks.getD current_task defaultTCB
    let start_vpn := va_floor start_va
    let end_vpn := va_ceil end_va
    if (vpnRange start_vpn end_vpn).any (fun vpn =>
        match tcb.memory_set.translate vpn with
        | some pte => pte.valid
        | none => false) then
      (-1, inner)
    else
      let map_perm := (port <<< 1) ||| MapPermission_U
      let tcb1 := { tcb with memory_set :=
        tcb.memory_set.insert_framed_area start_va end_va map_perm }
      (0, { inner with tasks := inner.tasks.set current_task tcb1 })

/-- TaskManager::task_munmap: reject on misalignment or if any covered page is
not validly mapped; otherwise unmap the whole range; the third component is
the list of frames the address space returned to the global allocator. -/
def task_munmap (inner : TaskManagerInner) (start len : Nat) :
    Int × TaskManagerInner × List Nat :=
  let start_va := start
  let end_va := start + len
  if !va_aligned start_va then
    (-1, inner, [])
  else
    let current_task := inner.current_task
    let tcb := inner.tasks.getD current_task defaultTCB
    let start_vpn := va_floor start_va
    let end_vpn := va_ceil end_va
    if (vpnRange start_vpn end_vpn).any (fun vpn =>
        match tcb.memory_set.translate vpn with
        | some pte => !pte.valid
        | none => true) then
      (-1, inner, [])
    else
      let p := tcb.memory_set.unmap start_vpn end_vpn
      let tcb1 := { tcb with memory_set := p.1 }
      (0, { inner with tasks := inner.tasks.set current_task tcb1 }, p.2)

/-- TaskManager::find_next_task: scan the num_app indices current + 1 ..
current + num_app, each taken modulo num_app, and return the first whose
status is Ready. -/
def find_next_task (num_app : Nat) (inner : TaskManagerInner) : Option Nat :=
  ((List.range' (inner.current_task + 1) num_app).map (fun id => id % num_app)).find?
    (fun id => (inner.tasks.getD id defaultTCB).task_status == TaskStatus.Ready)

/-- TaskManager::run_next_task: dispatch the first Ready task (mark it
Running, move the current index, set its start_time if this is its first
dispatch) or, with no Ready task, halt fatally (modelled none). now_ticks is
the raw get_time() tick counter read at dispatch. -/
def run_next_task (num_app now_ticks : Nat) (inner : TaskManagerInner) :
    Option TaskManagerInner :=
  match find_next_task num_app inner with
  | some next =>
    let tcb := inner.tasks.getD next defaultTCB
    let tcb := { tcb with task_status := TaskStatus.Running }
    let tcb :=
      if tcb.start_time.isNone then { tcb with start_time := some now_ticks } else tcb
    some { inner with tasks := inner.tasks.set next tcb, current_task := next }
  | none => none

/-- Modelled from the spec: the timer source. get_time() is the raw tick
counter; now_ms() reports the same instant in milliseconds, that is
ticks / (CLOCK_FREQ / MSEC_PER_SEC) with the standard clock frequency. -/
def TICKS_PER_MS : Nat := 12500

/-- Modelled from the spec: get_time_ms() as a function of the tick counter. -/
def get_time_ms_of (ticks : Nat) : Nat := ticks / TICKS_PER_MS

/-- TaskManager::get_current_run_time: get_time_ms() minus the recorded
start_time (the source unwraps; the unset case is modelled none). The
recorded start_time is a raw get_time() tick value. -/
def get_current_run_time (now_ticks : Nat) (inner : TaskManagerInner) : Option Nat :=
  (inner.tasks.getD inner.current_task defaultTCB).start_time.map
    (fun st => get_time_ms_of now_ticks - st)

/-- TaskManager::count_syscall: ids below MAX_SYSCALL_NUM bump the current
task histogram entry by one; other ids change nothing. -/
def count_syscall (inner : TaskManagerInner) (syscall_id : Nat) : TaskManagerInner :=
  if syscall_id < MAX_SYSCALL_NUM then
    let current_task := inner.current_task
    let tcb := inner.tasks.getD current_task defaultTCB
    let tcb1 := { tcb with syscall_times :=
      tcb.syscall_times.set syscall_id (tcb.syscall_times.getD syscall_id 0 + 1) }
    { inner with tasks := inner.tasks.set current_task tcb1 }
  else inner

/- ## Guard ordering around __switch -/

/-- Guard events on the task-manager inner state, in source order:
exclusive_access acquisitions, releases (end of scope or the explicit drop),
and the __switch invocation. -/
inductive KEvent
  | acquire
  | release
  | switchTo
deriving Repr, DecidableEq

/-- Event trace of TaskManager::run_first_task: exclusive_access, the explicit
drop of the guard, then __switch. -/
def run_first_task_events : List KEvent :=
  [KEvent.acquire, KEvent.release, KEvent.switchTo]

/-- Event trace of TaskManager::run_next_task: find_next_task acquires and
releases at end of scope; when a task was found, a second exclusive_access,
the explicit drop of the guard, then __switch; otherwise the fatal branch,
which never reaches a switch. -/
def run_next_task_events (found : Bool) : List KEvent :=
  if found then
    [KEvent.acquire, KEvent.release, KEvent.acquire, KEvent.release, KEvent.switchTo]
  else
    [KEvent.acquire, KEvent.release]

/-- Walk a trace keeping the count of currently held guards; true when every
switchTo event happens with zero guards held. -/
def noSwitchWhileHeld : Nat → List KEvent → Bool
  | _, [] => true
  | d, KEvent.acquire :: tr => noSwitchWhileHeld (d + 1) tr
  | d, KEvent.release :: tr => noSwitchWhileHeld (d - 1) tr
  | d, KEvent.switchTo :: tr => d == 0 && noSwitchWhileHeld d tr

/- ## Concrete scenario states -/

/-- A memory set with no mappings. -/
def emptyMS : MemorySet := ⟨fun _ => none⟩

/-- A task control block with the given status, unset start time, and a fresh
zeroed histogram of the recognized size. -/
def mkTask (s : TaskStatus) : TaskControlBlock :=
  { task_status := s, start_time := none,
    syscall_times := List.replicate MAX_SYSCALL_NUM 0, memory_set := emptyMS }

/-- The scheduler example of the spec: statuses Ready, Exited, Ready with
current index 0. -/
def scanExample : TaskManagerInner :=
  { tasks := [mkTask TaskStatus.Ready, mkTask TaskStatus.Exited, mkTask TaskStatus.Ready],
    current_task := 0 }

/-- A single never-dispatched Ready task, for the run-time scenario. -/
def c6Start : TaskManagerInner :=
  { tasks := [mkTask TaskStatus.Ready], current_task := 0 }

/-- A single running task with an empty address space, for the syscall
histogram and mmap scenarios. -/
def oneTaskInner : TaskManagerInner :=
  { tasks := [mkTask TaskStatus.Running], current_task := 0 }

/- ## Generic helper lemmas -/

theorem getD_set_self {α : Type} (l : List α) (c : Nat) (x d : α)
    (h : c < l.length) : (l.set c x).getD c d = x := by
  rw [List.getD_eq_getElem?_getD, List.getElem?_set_eq_of_lt x h]
  rfl

theorem getD_set_ne {α : Type} (l : List α) (c i : Nat) (x d : α)
    (h : c ≠ i) : (l.set c x).getD i d = l.getD i d := by
  rw [List.getD_eq_getElem?_getD, List.getElem?_set_ne h, ← List.getD_eq_getElem?_getD]

theorem mem_vpnRange (s e vpn : Nat) : vpn ∈ vpnRange s e ↔ s ≤ vpn ∧ vpn < e := by
  unfold vpnRange
  simp only [List.mem_map, List.mem_range]
  constructor
  · rintro ⟨i, hi, rfl⟩
    omega
  · rintro ⟨h1, h2⟩
    exact ⟨vpn - s, by omega, by omega⟩

theorem find?_some_first {α : Type} (p : α → Bool) (b : α) (xs : List α)
    (h : xs.find? p = some b) :
    p b = true ∧ ∃ k, ∃ hk : k < xs.length, xs.get ⟨k, hk⟩ = b ∧
      ∀ j, ∀ hj : j < xs.length, j < k → p (xs.get ⟨j, hj⟩) = false := by
  induction xs with
  | nil => simp [List.find?] at h
  | cons x xs ih =>
    by_cases hx : p x
    · rw [List.find?_cons_of_pos _ hx] at h
      injection h with h
      subst h
      exact ⟨hx, 0, by simp, rfl, fun j hj hj0 => absurd hj0 (by omega)⟩
    · rw [List.find?_cons_of_neg _ (by simpa using hx)] at h
      obtain ⟨hpb, k, hk, hget, hfirst⟩ := ih h
      refine ⟨hpb, k + 1, by simpa using hk, hget, ?_⟩
      intro j hj hjk
      cases j with
      | zero => simpa using hx
      | succ j => exact hfirst j (by simpa using hj) (by omega)

/- ## Claim theorems: frame allocator -/

theorem allocMany_fresh (n c e : Nat) (h : c + n ≤ e) :
    allocMany n { current := c, end_ := e, recycled := [] } =
      ((List.range n).map (fun k => some (c + k)),
        { current := c + n, end_ := e, recycled := [] }) := by
  induction n generalizing c with
  | zero => simp [allocMany]
  | succ n ih =>
    have hce : c ≠ e := by omega
    have hstep : StackFrameAllocator.alloc { current := c, end_ := e, recycled := [] } =
        (some c, { current := c + 1, end_ := e, recycled := [] }) := by
      simp [StackFrameAllocator.alloc, hce]
    have hrec := ih (c + 1) (by omega)
    simp only [allocMany, hstep, hrec]
    rw [Prod.mk.injEq]
    constructor
    · rw [List.range_succ_eq_map]
      simp [Function.comp]
      exact fun k _ => by omega
    · simp
      omega

/-- Claim C3: alloc pops the most recently freed page when the recycled stack
is non-empty (so dealloc followed by alloc returns the same page and restores
the state); on an empty stack it fails exactly when current = end and otherwise
returns the old frontier and advances it; after init with a range of size n,
n allocations yield the n pairwise-distinct pages of [low, low + n) and the
next allocation fails. -/
theorem alloc_spec (a a' : StackFrameAllocator) (p low n : Nat) :
    (∀ q rest, a.recycled = q :: rest →
      a.alloc = (some q, { a with recycled := rest })) ∧
    (a.dealloc p = some a' → a'.alloc = (some p, a)) ∧
    (a.recycled = [] → a.current = a.end_ → a.alloc = (none, a)) ∧
    (a.recycled = [] → a.current ≠ a.end_ →
      a.alloc = (some a.current, { a with current := a.current + 1 })) ∧
    ((allocMany n (StackFrameAllocator.new.init low (low + n))).1 =
        (List.range n).map (fun k => some (low + k)) ∧
      ((allocMany n (StackFrameAllocator.new.init low (low + n))).1).Nodup ∧
      (∀ r ∈ (allocMany n (StackFrameAllocator.new.init low (low + n))).1,
        ∃ q, r = some q ∧ low ≤ q ∧ q < low + n) ∧
      ((allocMany n (StackFrameAllocator.new.init low (low + n))).2.alloc).1 = none) := by
  have hfresh := allocMany_fresh n low (low + n) (by omega)
  have hinit : StackFrameAllocator.new.init low (low + n) =
      { current := low, end_ := low + n, recycled := [] } := rfl
  refine ⟨?_, ?_, ?_, ?_, ?_, ?_, ?_, ?_⟩
  · intro q rest hrec
    simp [StackFrameAllocator.alloc, hrec]
  · intro hde
    unfold StackFrameAllocator.dealloc at hde
    split at hde
    · exact absurd hde (by simp)
    · have ha' : a' = { a with recycled := p :: a.recycled } := by
        injection hde with h; exact h.symm
      subst ha'
      simp [StackFrameAllocator.alloc]
  · intro hrec heq
    simp [StackFrameAllocator.alloc, hrec, heq]
  · intro hrec hne
    simp [StackFrameAllocator.alloc, hrec, hne]
  · rw [hinit, hfresh]
  · rw [hinit, hfresh]
    refine List.Nodup.map ?_ (List.nodup_range n)
    intro x y hxy
    simpa using hxy
  · rw [hinit, hfresh]
    intro r hr
    simp only [List.mem_map, List.mem_range] at hr
    obtain ⟨k, hk, rfl⟩ := hr
    exact ⟨low + k, rfl, by omega, by omega⟩
  · rw [hinit, hfresh]
    simp [StackFrameAllocator.alloc]

/-- Witness for alloc_spec at concrete states: LIFO pop, exhausted frontier,
and frontier advance. -/
theorem alloc_spec_witness :
    StackFrameAllocator.alloc ⟨5, 8, [3]⟩ = (some 3, ⟨5, 8, []⟩) ∧
    StackFrameAllocator.alloc ⟨8, 8, []⟩ = (none, ⟨8, 8, []⟩) ∧
    StackFrameAllocator.alloc ⟨5, 8, []⟩ = (some 5, ⟨6, 8, []⟩) := by
  refine ⟨(alloc_spec ⟨5, 8, []⟩ ⟨5, 8, [3]⟩ 3 0 0).2.1 (by decide),
          (alloc_spec ⟨8, 8, []⟩ ⟨0, 0, []⟩ 0 0 0).2.2.1 rfl rfl, ?_⟩
  have h := (alloc_spec ⟨5, 8, []⟩ ⟨0, 0, []⟩ 0 0 0).2.2.2.1 rfl (by decide)
  simpa using h

/-- Claim C4: dealloc is fatal (modelled none) exactly when the page is at or
beyond the frontier (never allocated) or already on the recycled stack (double
free); otherwise it only pushes the page onto the stack. A successful dealloc
followed by a dealloc of the same page is fatal. -/
theorem dealloc_spec (a a' : StackFrameAllocator) (ppn : Nat) :
    (a.dealloc ppn = none ↔ a.current ≤ ppn ∨ ppn ∈ a.recycled) ∧
    (a.dealloc ppn = some a' → a' = { a with recycled := ppn :: a.recycled }) ∧
    (a.dealloc ppn = some a' → a'.dealloc ppn = none) ∧
    (a.current ≤ ppn → a.dealloc ppn = none) := by
  refine ⟨?_, ?_, ?_, ?_⟩
  · unfold StackFrameAllocator.dealloc
    split <;> simp [*]
  · intro hde
    unfold StackFrameAllocator.dealloc at hde
    split at hde
    · exact absurd hde (by simp)
    · injection hde with h; exact h.symm
  · intro hde
    unfold StackFrameAllocator.dealloc at hde ⊢
    split at hde
    · exact absurd hde (by simp)
    · injection hde with h
      rw [← h]
      simp
  · intro hge
    unfold StackFrameAllocator.dealloc
    simp [hge]

/-- Witness for dealloc_spec: a valid free pushes, the second free of the same
page is fatal, and freeing a never-allocated page is fatal. -/
theorem dealloc_spec_witness :
    StackFrameAllocator.dealloc ⟨5, 10, []⟩ 3 = some ⟨5, 10, [3]⟩ ∧
    StackFrameAllocator.dealloc ⟨5, 10, [3]⟩ 3 = none ∧
    StackFrameAllocator.dealloc ⟨5, 10, []⟩ 7 = none := by
  refine ⟨?_, ?_, ?_⟩
  · have h := (dealloc_spec ⟨5, 10, []⟩ ⟨5, 10, [3]⟩ 3).2.1
    decide
  · exact (dealloc_spec ⟨5, 10, []⟩ ⟨5, 10, [3]⟩ 3).2.2.1 (by decide)
  · exact (dealloc_spec ⟨5, 10, []⟩ ⟨5, 10, [3]⟩ 7).2.2.2 (by decide)

/-- Claim C7: whenever frame_alloc succeeds, every byte of the returned frame
backing page is zero in the resulting memory, whatever the prior contents. -/
theorem frame_alloc_zeroed (a : StackFrameAllocator) (mem : Mem) (ppn : Nat)
    (h : (frame_alloc a mem).1 = some ppn) :
    ∀ o, o < PAGE_SIZE → (frame_alloc a mem).2.2 ppn o = 0 := by
  intro o ho
  unfold frame_alloc at h ⊢
  rcases ha : a.alloc with ⟨r, a1⟩
  rw [ha] at h
  cases r with
  | none => exact Option.noConfusion h
  | some q =>
    injection h with hqp
    subst hqp
    show frameTracker_new mem q q o = 0
    simp [frameTracker_new, ho]

/-- Witness for frame_alloc_zeroed: allocating from a fresh one-page allocator
over memory filled with 7 leaves byte 5 of page 0 zeroed. -/
theorem frame_alloc_zeroed_witness :
    (frame_alloc ⟨0, 1, []⟩ (fun _ _ => 7)).2.2 0 5 = 0 :=
  frame_alloc_zeroed ⟨0, 1, []⟩ (fun _ _ => 7) 0 rfl 5 (by decide)

/- ## Claim theorems: task manager -/

/-- Claim C8: in run_first_task, and in run_next_task both when a next task is
found and in the fatal branch, every guard on the shared inner state is
released before __switch is invoked: no switchTo event of the trace occurs
while the held-guard count is positive. -/
theorem switch_guard_free :
    noSwitchWhileHeld 0 run_first_task_events = true ∧
    noSwitchWhileHeld 0 (run_next_task_events true) = true ∧
    noSwitchWhileHeld 0 (run_next_task_events false) = true := by
  decide

/-- Claim C9: count_syscall with an id inside the recognized range increments
exactly the current task histogram entry for that id by one, leaving every
other entry and every other task unchanged; an out-of-range id changes
nothing. -/
theorem count_syscall_spec (inner : TaskManagerInner) (id : Nat)
    (hc : inner.current_task < inner.tasks.length)
    (hl : (inner.tasks.getD inner.current_task defaultTCB).syscall_times.length =
      MAX_SYSCALL_NUM) :
    (id < MAX_SYSCALL_NUM →
      (count_syscall inner id).current_task = inner.current_task ∧
      ((count_syscall inner id).tasks.getD inner.current_task defaultTCB).syscall_times.getD
          id 0 =
        (inner.tasks.getD inner.current_task defaultTCB).syscall_times.getD id 0 + 1 ∧
      (∀ j, j ≠ id →
        ((count_syscall inner id).tasks.getD inner.current_task defaultTCB).syscall_times.getD
            j 0 =
          (inner.tasks.getD inner.current_task defaultTCB).syscall_times.getD j 0) ∧
      (∀ i, i ≠ inner.current_task →
        (count_syscall inner id).tasks.getD i defaultTCB =
          inner.tasks.getD i defaultTCB)) ∧
    (¬ id < MAX_SYSCALL_NUM → count_syscall inner id = inner) := by
  constructor
  · intro hid
    have hidlen :
        id < (inner.tasks.getD inner.current_task defaultTCB).syscall_times.length := by
      rw [hl]; exact hid
    simp only [count_syscall, if_pos hid]
    refine ⟨by simp, ?_, ?_, ?_⟩
    · rw [getD_set_self _ _ _ _ hc]
      exact getD_set_self _ _ _ _ hidlen
    · intro j hj
      rw [getD_set_self _ _ _ _ hc]
      exact getD_set_ne _ _ _ _ _ (Ne.symm hj)
    · intro i hi
      exact getD_set_ne _ _ _ _ _ (Ne.symm hi)
  · intro hid
    simp only [count_syscall, if_neg hid]

/-- Witness for count_syscall_spec: one running task with a zeroed histogram,
syscall id 3 goes from 0 to 1. -/
theorem count_syscall_spec_witness :
    ((count_syscall oneTaskInner 3).tasks.getD 0 defaultTCB).syscall_times.getD 3 0 =
      (oneTaskInner.tasks.getD 0 defaultTCB).syscall_times.getD 3 0 + 1 :=
  ((count_syscall_spec oneTaskInner 3 (by decide) (by decide)).1 (by decide)).2.1

/-- Claim C5: find_next_task scans the indices current + 1, ..,
current + num_app modulo num_app in order and returns the first Ready one
(hence never an Exited task, and the current task is considered last); when no
scanned index is Ready it returns none and run_next_task halts fatally
(modelled none). -/
theorem find_next_task_spec (num_app : Nat) (inner : TaskManagerInner) (j now : Nat) :
    (find_next_task num_app inner = some j →
      (inner.tasks.getD j defaultTCB).task_status = TaskStatus.Ready ∧
      ∃ k, k < num_app ∧ j = (inner.current_task + 1 + k) % num_app ∧
        ∀ m, m < k →
          (inner.tasks.getD ((inner.current_task + 1 + m) % num_app)
            defaultTCB).task_status ≠ TaskStatus.Ready) ∧
    (find_next_task num_app inner = none ↔
      ∀ k, k < num_app →
        (inner.tasks.getD ((inner.current_task + 1 + k) % num_app)
          defaultTCB).task_status ≠ TaskStatus.Ready) ∧
    (find_next_task num_app inner = none → run_next_task num_app now inner = none) := by
  have hlen : ((List.range' (inner.current_task + 1) num_app).map
      (fun id => id % num_app)).length = num_app := by
    simp
  have hgm : ∀ (m : Nat) (hm : m < ((List.range' (inner.current_task + 1) num_app).map
      (fun id => id % num_app)).length),
      ((List.range' (inner.current_task + 1) num_app).map
        (fun id => id % num_app)).get ⟨m, hm⟩ = (inner.current_task + 1 + m) % num_app := by
    intro m hm
    simp [List.get_eq_getElem, List.getElem_range']
  refine ⟨?_, ?_, ?_⟩
  · intro h
    obtain ⟨hpb, k, hk, hget, hfirst⟩ := find?_some_first _ _ _ h
    have hkn : k < num_app := by rw [hlen] at hk; exact hk
    have hj : j = (inner.current_task + 1 + k) % num_app := by
      rw [← hget, hgm k hk]
    refine ⟨by simpa [beq_iff_eq] using hpb, k, hkn, hj, ?_⟩
    intro m hm
    have hm' : m < ((List.range' (inner.current_task + 1) num_app).map
        (fun id => id % num_app)).length := by rw [hlen]; omega
    have := hfirst m hm' hm
    rw [hgm m hm'] at this
    simpa [beq_iff_eq] using this
  · rw [show find_next_task num_app inner =
      ((List.range' (inner.current_task + 1) num_app).map
        (fun id => id % num_app)).find?
        (fun id => (inner.tasks.getD id defaultTCB).task_status == TaskStatus.Ready)
      from rfl, List.find?_eq_none]
    constructor
    · intro hall k hk
      have hmem : (inner.current_task + 1 + k) % num_app ∈
          (List.range' (inner.current_task + 1) num_app).map (fun id => id % num_app) := by
        refine List.mem_map.mpr ⟨inner.current_task + 1 + k, ?_, rfl⟩
        exact List.mem_range'.mpr ⟨k, hk, by omega⟩
      simpa [beq_iff_eq] using hall _ hmem
    · intro hall x hx
      obtain ⟨y, hy, rfl⟩ := List.mem_map.mp hx
      obtain ⟨i, hi, rfl⟩ := List.mem_range'.mp hy
      have := hall i hi
      simpa [beq_iff_eq, show inner.current_task + 1 + 1 * i = inner.current_task + 1 + i
        by omega] using this
  · intro h
    simp [run_next_task, h]

/-- Witness for find_next_task_spec: with statuses Ready, Exited, Ready and
current index 0 the scheduler selects index 2, whose status is Ready. -/
theorem find_next_task_spec_witness :
    find_next_task 3 scanExample = some 2 ∧
    (scanExample.tasks.getD 2 defaultTCB).task_status = TaskStatus.Ready :=
  ⟨rfl, ((find_next_task_spec 3 scanExample 2 0).1 rfl).1⟩

/-- Claim C6 (refuted on the code): start_time is recorded from the raw
get_time() tick counter while get_current_run_time subtracts it from
get_time_ms(), a different unit. With a first dispatch at tick 12500 (1 ms on
the modelled clock) and a query at tick 25000 (2 ms), the code computes
2 - 12500 = 0 (truncated here; a usize underflow in the source), while
now - start_time in the shared millisecond unit is 1. -/
theorem run_time_unit_mismatch :
    (run_next_task 1 12500 c6Start).map (fun i1 =>
      (i1.tasks.getD 0 defaultTCB).start_time) = some (some 12500) ∧
    (run_next_task 1 12500 c6Start).map (fun i1 =>
      get_current_run_time 25000 i1) = some (some 0) ∧
    get_time_ms_of 25000 - get_time_ms_of 12500 = 1 := by
  refine ⟨rfl, rfl, rfl⟩

theorem getD_set_translate (l : List TaskControlBlock) (c : Nat)
    (t1 : TaskControlBlock)
    (hpt : ∀ vpn, t1.memory_set.translate vpn =
      (l.getD c defaultTCB).memory_set.translate vpn) (i vpn : Nat) :
    ((l.set c t1).getD i defaultTCB).memory_set.translate vpn =
      (l.getD i defaultTCB).memory_set.translate vpn := by
  by_cases hic : c = i
  · subst hic
    by_cases hlt : c < l.length
    · rw [getD_set_self _ _ _ _ hlt]
      exact hpt vpn
    · rw [List.set_eq_of_length_le (by omega)]
  · rw [getD_set_ne _ _ _ _ _ hic]

/-- Claim C10: a zero-length mmap with aligned start and valid permission bits
succeeds and maps no page; a zero-length munmap with aligned start succeeds,
unmaps no page and frees no frame. -/
theorem zero_len_requests (inner : TaskManagerInner) (start port : Nat)
    (ha : va_aligned start = true) (hhi : port >>> 3 = 0) (hlo : port &&& 0x7 ≠ 0) :
    (task_mmap inner start 0 port).1 = 0 ∧
    (∀ i vpn,
      ((task_mmap inner start 0 port).2.tasks.getD i defaultTCB).memory_set.translate vpn =
        (inner.tasks.getD i defaultTCB).memory_set.translate vpn) ∧
    (task_munmap inner start 0).1 = 0 ∧
    (∀ i vpn,
      ((task_munmap inner start 0).2.1.tasks.getD i defaultTCB).memory_set.translate vpn =
        (inner.tasks.getD i defaultTCB).memory_set.translate vpn) ∧
    (task_munmap inner start 0).2.2 = [] := by
  have ha' : start % 4096 = 0 := by simpa [va_aligned, PAGE_SIZE] using ha
  have hfe : va_ceil start = va_floor start := by
    unfold va_ceil va_floor PAGE_SIZE
    omega
  have hrange : vpnRange (va_floor start) (va_ceil start) = [] := by
    rw [hfe, vpnRange]
    simp
  refine ⟨?_, ?_, ?_, ?_, ?_⟩
  · simp [task_mmap, ha, hhi, hlo, hrange]
  · intro i vpn
    simp only [task_mmap, ha, hhi, hlo, Nat.add_zero]
    simp only [Bool.not_true, Bool.false_or]
    rw [if_neg (by simp [hhi, hlo]), if_neg (by simp [hrange])]
    refine getD_set_translate _ _ _ ?_ i vpn
    intro w
    show (if va_floor start ≤ w ∧ w < va_ceil start then
        some { valid := true, ppn := 0, perm := (port <<< 1) ||| MapPermission_U }
      else (inner.tasks.getD inner.current_task defaultTCB).memory_set.translate w) =
      (inner.tasks.getD inner.current_task defaultTCB).memory_set.translate w
    rw [if_neg (by rw [hfe]; omega)]
  · simp [task_munmap, ha, hrange]
  · intro i vpn
    simp only [task_munmap, ha, Nat.add_zero]
    simp only [Bool.not_true]
    rw [if_neg (by simp), if_neg (by simp [hrange])]
    refine getD_set_translate _ _ _ ?_ i vpn
    intro w
    show (if va_floor start ≤ w ∧ w < va_ceil start then none
      else (inner.tasks.getD inner.current_task defaultTCB).memory_set.translate w) =
      (inner.tasks.getD inner.current_task defaultTCB).memory_set.translate w
    rw [if_neg (by rw [hfe]; omega)]
  · simp [task_munmap, ha, hrange, MemorySet.unmap]

/-- Witness for zero_len_requests: a zero-length mmap and munmap at address
4096 with read permission succeed on the one-task state. -/
theorem zero_len_requests_witness :
    (task_mmap oneTaskInner 4096 0 1).1 = 0 ∧ (task_munmap oneTaskInner 4096 0).1 = 0 := by
  have h := zero_len_requests oneTaskInner 4096 1 (by decide) (by decide) (by decide)
  exact ⟨h.1, h.2.2.1⟩

/-- Claim C1: task_mmap returns -1 and leaves the state unchanged when start
is unaligned, or port has a bit above the low three set, or port is 0, or some
covered page is already validly mapped; otherwise it returns 0 and every
covered page of the current task becomes mapped by a valid, user-accessible
entry carrying exactly the requested read, write and execute bits. -/
theorem task_mmap_spec (inner : TaskManagerInner) (start len port : Nat)
    (hc : inner.current_task < inner.tasks.length) :
    ((va_aligned start = false ∨ port >>> 3 ≠ 0 ∨ port = 0 ∨
        (∃ vpn ∈ vpnRange (va_floor start) (va_ceil (start + len)), ∃ pte,
          (inner.tasks.getD inner.current_task defaultTCB).memory_set.translate vpn =
            some pte ∧ pte.valid = true)) →
      task_mmap inner start len port = (-1, inner)) ∧
    (va_aligned start = true → port >>> 3 = 0 → port ≠ 0 →
      (∀ vpn ∈ vpnRange (va_floor start) (va_ceil (start + len)), ∀ pte,
        (inner.tasks.getD inner.current_task defaultTCB).memory_set.translate vpn =
          some pte → pte.valid = false) →
      (task_mmap inner start len port).1 = 0 ∧
      ∀ vpn ∈ vpnRange (va_floor start) (va_ceil (start + len)), ∃ pte,
        ((task_mmap inner start len port).2.tasks.getD inner.current_task
          defaultTCB).memory_set.translate vpn = some pte ∧
        pte.valid = true ∧ pte.perm.testBit 4 = true ∧
        pte.perm.testBit 1 = port.testBit 0 ∧
        pte.perm.testBit 2 = port.testBit 1 ∧
        pte.perm.testBit 3 = port.testBit 2) := by
  constructor
  · rintro (ha | hp8 | hp0 | ⟨vpn, hmem, pte, htr, hval⟩)
    · simp [task_mmap, ha]
    · simp [task_mmap, hp8]
    · subst hp0
      simp [task_mmap]
    · by_cases hb : (!va_aligned start || port >>> 3 != 0 || port &&& 0x7 == 0) = true
      · simp [task_mmap, hb]
      · have hany : ((vpnRange (va_floor start) (va_ceil (start + len))).any fun w =>
            match (inner.tasks.getD inner.current_task
              defaultTCB).memory_set.translate w with
            | some pte => pte.valid
            | none => false) = true := by
          refine List.any_eq_true.mpr ⟨vpn, hmem, ?_⟩
          rw [htr]
          exact hval
        rw [Bool.not_eq_true] at hb
        simp only [task_mmap]
        rw [if_neg (by simp [hb]), if_pos hany]
  · intro ha hhi hp0 hnone
    have hlt : port < 8 := by
      rw [Nat.shiftRight_eq_div_pow] at hhi
      omega
    have h7 : port &&& 0x7 ≠ 0 := by
      interval_cases port <;> simp_all
    have hb0 : (!va_aligned start || port >>> 3 != 0 || port &&& 0x7 == 0) = false := by
      simp [ha, hhi, h7]
    have hany0 : ((vpnRange (va_floor start) (va_ceil (start + len))).any fun w =>
        match (inner.tasks.getD inner.current_task
          defaultTCB).memory_set.translate w with
        | some pte => pte.valid
        | none => false) = false := by
      refine List.any_eq_false.mpr ?_
      intro w hw
      rcases htr : (inner.tasks.getD inner.current_task
          defaultTCB).memory_set.translate w with _ | pte
      · simp
      · simp [hnone w hw pte htr]
    have hmm : task_mmap inner start len port =
        (0, { inner with tasks := inner.tasks.set inner.current_task {
            (inner.tasks.getD inner.current_task defaultTCB) with
            memory_set := (inner.tasks.getD inner.current_task
              defaultTCB).memory_set.insert_framed_area start (start + len)
              ((port <<< 1) ||| MapPermission_U) } }) := by
      simp only [task_mmap]
      rw [if_neg (by rw [hb0]; simp), if_neg (by rw [hany0]; simp)]
    rw [hmm]
    refine ⟨rfl, ?_⟩
    intro vpn hmemv
    have hbounds := (mem_vpnRange _ _ vpn).mp hmemv
    rw [getD_set_self _ _ _ _ hc]
    refine ⟨PTE.mk true 0 ((port <<< 1) ||| MapPermission_U), ?_, rfl, ?_, ?_, ?_, ?_⟩
    · show (if va_floor start ≤ vpn ∧ vpn < va_ceil (start + len) then
          some { valid := true, ppn := 0, perm := (port <<< 1) ||| MapPermission_U }
        else (inner.tasks.getD inner.current_task
          defaultTCB).memory_set.translate vpn) = _
      rw [if_pos hbounds]
    all_goals
      show Nat.testBit ((port <<< 1) ||| MapPermission_U) _ = _
      interval_cases port <;> decide

/-- Witness for task_mmap_spec: on the one-task state with an empty address
space, mapping one page at 4096 with read/write permission succeeds, while an
unaligned start is rejected with the state unchanged. -/
theorem task_mmap_spec_witness :
    (task_mmap oneTaskInner 4096 4096 3).1 = 0 ∧
    task_mmap oneTaskInner 4097 4096 3 = (-1, oneTaskInner) := by
  constructor
  · exact ((task_mmap_spec oneTaskInner 4096 4096 3 (by decide)).2 (by decide)
      (by decide) (by decide)
      (fun vpn _ pte h => by simp [oneTaskInner, mkTask, emptyMS] at h)).1
  · exact (task_mmap_spec oneTaskInner 4097 4096 3 (by decide)).1
      (Or.inl (by decide))

/-- Claim C2: task_munmap returns -1 and leaves the state unchanged when start
is unaligned or some covered page is not validly mapped; otherwise it returns
0, every covered page becomes unmapped, pages outside the range are untouched,
and the frame of every previously mapped covered page is handed back to the
global allocator. -/
theorem task_munmap_spec (inner : TaskManagerInner) (start len : Nat)
    (hc : inner.current_task < inner.tasks.length) :
    ((va_aligned start = false ∨
        (∃ vpn ∈ vpnRange (va_floor start) (va_ceil (start + len)),
          (inner.tasks.getD inner.current_task defaultTCB).memory_set.translate vpn =
              none ∨
            ∃ pte, (inner.tasks.getD inner.current_task
              defaultTCB).memory_set.translate vpn = some pte ∧ pte.valid = false)) →
      task_munmap inner start len = (-1, inner, [])) ∧
    (va_aligned start = true →
      (∀ vpn ∈ vpnRange (va_floor start) (va_ceil (start + len)), ∃ pte,
        (inner.tasks.getD inner.current_task defaultTCB).memory_set.translate vpn =
          some pte ∧ pte.valid = true) →
      (task_munmap inner start len).1 = 0 ∧
      (∀ vpn ∈ vpnRange (va_floor start) (va_ceil (start + len)),
        ((task_munmap inner start len).2.1.tasks.getD inner.current_task
          defaultTCB).memory_set.translate vpn = none) ∧
      (∀ vpn, vpn ∉ vpnRange (va_floor start) (va_ceil (start + len)) →
        ((task_munmap inner start len).2.1.tasks.getD inner.current_task
          defaultTCB).memory_set.translate vpn =
        (inner.tasks.getD inner.current_task defaultTCB).memory_set.translate vpn) ∧
      (∀ vpn ∈ vpnRange (va_floor start) (va_ceil (start + len)), ∀ pte,
        (inner.tasks.getD inner.current_task defaultTCB).memory_set.translate vpn =
          some pte → pte.ppn ∈ (task_munmap inner start len).2.2)) := by
  constructor
  · rintro (ha | ⟨vpn, hmem, hbad⟩)
    · simp [task_munmap, ha]
    · by_cases hb : (!va_aligned start) = true
      · simp [task_munmap, hb]
      · have hany : ((vpnRange (va_floor start) (va_ceil (start + len))).any fun w =>
            match (inner.tasks.getD inner.current_task
              defaultTCB).memory_set.translate w with
            | some pte => !pte.valid
            | none => true) = true := by
          refine List.any_eq_true.mpr ⟨vpn, hmem, ?_⟩
          rcases hbad with hnone | ⟨pte, htr, hval⟩
          · rw [hnone]
          · rw [htr]
            simp [hval]
        rw [Bool.not_eq_true] at hb
        simp only [task_munmap]
        rw [if_neg (by simp [hb]), if_pos hany]
  · intro ha hmapped
    have hany0 : ((vpnRange (va_floor start) (va_ceil (start + len))).any fun w =>
        match (inner.tasks.getD inner.current_task
          defaultTCB).memory_set.translate w with
        | some pte => !pte.valid
        | none => true) = false := by
      refine List.any_eq_false.mpr ?_
      intro w hw
      obtain ⟨pte, htr, hval⟩ := hmapped w hw
      rw [htr]
      simp [hval]
    have hmu : task_munmap inner start len =
        (0, { inner with tasks := inner.tasks.set inner.current_task {
            (inner.tasks.getD inner.current_task defaultTCB) with
            memory_set := ((inner.tasks.getD inner.current_task
              defaultTCB).memory_set.unmap (va_floor start)
              (va_ceil (start + len))).1 } },
          ((inner.tasks.getD inner.current_task defaultTCB).memory_set.unmap
            (va_floor start) (va_ceil (start + len))).2) := by
      simp only [task_munmap]
      rw [if_neg (by rw [ha]; simp), if_neg (by rw [hany0]; simp)]
    rw [hmu]
    refine ⟨rfl, ?_, ?_, ?_⟩
    · intro vpn hmemv
      have hbounds := (mem_vpnRange _ _ vpn).mp hmemv
      rw [getD_set_self _ _ _ _ hc]
      show (if va_floor start ≤ vpn ∧ vpn < va_ceil (start + len) then none
        else (inner.tasks.getD inner.current_task
          defaultTCB).memory_set.translate vpn) = none
      rw [if_pos hbounds]
    · intro vpn hout
      have hbounds : ¬ (va_floor start ≤ vpn ∧ vpn < va_ceil (start + len)) := by
        intro hcon
        exact hout ((mem_vpnRange _ _ vpn).mpr hcon)
      rw [getD_set_self _ _ _ _ hc]
      show (if va_floor start ≤ vpn ∧ vpn < va_ceil (start + len) then none
        else (inner.tasks.getD inner.current_task
          defaultTCB).memory_set.translate vpn) = _
      rw [if_neg hbounds]
    · intro vpn hmemv pte htr
      show pte.ppn ∈ (vpnRange (va_floor start) (va_ceil (start + len))).filterMap
        (fun w => ((inner.tasks.getD inner.current_task
          defaultTCB).memory_set.translate w).map PTE.ppn)
      refine List.mem_filterMap.mpr ⟨vpn, hmemv, ?_⟩
      rw [htr]
      rfl

/-- Witness for task_munmap_spec: a task whose address space maps exactly page
1 to frame 42; unmapping that page succeeds and frame 42 is handed back, and
an unaligned start is rejected. -/
theorem task_munmap_spec_witness :
    (task_munmap (TaskManagerInner.mk [TaskControlBlock.mk TaskStatus.Running none []
      (MemorySet.mk (fun w => if w = 1 then some (PTE.mk true 42 0) else none))] 0)
      4096 4096).1 = 0 ∧
    task_munmap (TaskManagerInner.mk [TaskControlBlock.mk TaskStatus.Running none []
      (MemorySet.mk (fun w => if w = 1 then some (PTE.mk true 42 0) else none))] 0)
      4097 4096 =
      (-1, TaskManagerInner.mk [TaskControlBlock.mk TaskStatus.Running none []
        (MemorySet.mk (fun w => if w = 1 then some (PTE.mk true 42 0) else none))] 0,
        []) := by
  constructor
  · refine ((task_munmap_spec _ 4096 4096 (by decide)).2 (by decide) ?_).1
    intro vpn hv
    rw [mem_vpnRange] at hv
    have hv1 : vpn = 1 := by
      have h1 : va_floor 4096 = 1 := by decide
      have h2 : va_ceil (4096 + 4096) = 2 := by decide
      rw [h1, h2] at hv
      omega
    subst hv1
    exact ⟨PTE.mk true 42 0, rfl, rfl⟩
  · exact (task_munmap_spec _ 4097 4096 (by decide)).1 (Or.inl (by decide))
